import Mathlib

/-!
# Verification of the Cheerlights Pico bot control program

A shallow embedding of `src/main.py` (a MicroPython program that polls the
Cheerlights service for a color, displays it on half of a Pico RGB keypad,
and lets the user push a new color choice by pressing one of 8 illuminated
buttons), together with theorems settling the frozen claims about it.

Modelling conventions:
* Pure Python functions become Lean functions; hardware and network effects
  become explicit effect lists; fallible code returns `Option`/`Except`.
* Python's unbounded integers are `Nat`/`Int`; `float` brightness values are
  modelled as `ℚ` (the pulse logic uses only subtraction, addition and
  comparisons with the constants 1.0, 0.1, 0.0005, all exactly representable).
* Python's `int(s, 16)` is modelled faithfully for ASCII input: optional
  surrounding whitespace, optional sign, optional `0x`/`0X` radix marker,
  hex digits with single underscores allowed between digits.
-/

namespace CheerBot

/-! ## Constants of `src/main.py` (lines 35-55) -/

/-- `UPDATE_INTERVAL = 120` — refresh interval in seconds. -/
def UPDATE_INTERVAL : Nat := 120

/-- `END_TO_END_DELAY = 10` — seconds from button press to API update. -/
def END_TO_END_DELAY : Nat := 10

/-- `CHOICES` — the fixed ordered palette (Python dicts preserve insertion
order): hex color code to upstream label. -/
def CHOICES : List (String × String) :=
  [ ("#0000ff", "blue"),
    ("#008000", "green"),
    ("#00ffff", "cyan"),
    ("#ff0000", "red"),
    ("#ff00ff", "magenta"),
    ("#895900", "orange"),
    ("#ff2349", "pink"),
    ("#ffff00", "yellow") ]

/-- `list(CHOICES.values())` — the labels in palette (button-index) order. -/
def choiceLabels : List String := CHOICES.map Prod.snd

/-- `list(CHOICES.keys())` — the palette hex codes in order. -/
def choiceKeys : List String := CHOICES.map Prod.fst

/-- `MAPPINGS` — normalization of near-duplicate upstream colors onto
palette entries. -/
def MAPPINGS : List (String × String) :=
  [ ("#ffa500", "#895900"),
    ("#ffc0cb", "#ff2349") ]

/-! ## Python `int(s, 16)` (used by `hex_to_rgb`, line 60) -/

/-- ASCII whitespace stripped by Python's `int()` before parsing. -/
def isPySpace (c : Char) : Bool :=
  c = ' ' || c = '\t' || c = '\n' || c = '\r' || c = '\x0b' || c = '\x0c'

/-- Value of a single hexadecimal digit character (`0-9`, `a-f`, `A-F`),
expressed through `Char.toNat` (48-57, 97-102, 65-70). -/
def hexVal (c : Char) : Option Nat :=
  if 48 ≤ c.toNat ∧ c.toNat ≤ 57 then some (c.toNat - 48)
  else if 97 ≤ c.toNat ∧ c.toNat ≤ 102 then some (c.toNat - 87)
  else if 65 ≤ c.toNat ∧ c.toNat ≤ 70 then some (c.toNat - 55)
  else none

/-- Hex digits after the first one: a single `_` is permitted between two
digits (Python numeric-literal grammar). -/
def hexDigitsCore : Nat → List Char → Option Nat
  | acc, [] => some acc
  | acc, '_' :: c :: rest =>
    match hexVal c with
    | some d => hexDigitsCore (16 * acc + d) rest
    | none => none
  | acc, c :: rest =>
    match hexVal c with
    | some d => hexDigitsCore (16 * acc + d) rest
    | none => none

/-- A nonempty run of hex digits (with interior underscores). -/
def hexDigitsStart : List Char → Option Nat
  | [] => none
  | c :: rest =>
    match hexVal c with
    | some d => hexDigitsCore d rest
    | none => none

/-- After a `0x` radix marker one optional underscore may precede the
digits (`int("0x_f", 16)` is valid Python). -/
def afterRadixMarker : List Char → Option Nat
  | '_' :: rest => hexDigitsStart rest
  | l => hexDigitsStart l

/-- The unsigned part: optional `0x`/`0X` marker, then digits. -/
def unsignedPart : List Char → Option Nat
  | '0' :: 'x' :: rest => afterRadixMarker rest
  | '0' :: 'X' :: rest => afterRadixMarker rest
  | l => hexDigitsStart l

/-- The signed part: an optional single `+` or `-`. -/
def signedPart : List Char → Option Int
  | '+' :: rest => (unsignedPart rest).map (fun n => (n : Int))
  | '-' :: rest => (unsignedPart rest).map (fun n => -(n : Int))
  | l => (unsignedPart l).map (fun n => (n : Int))

/-- Strip leading and trailing Python whitespace. -/
def stripWS (l : List Char) : List Char :=
  ((l.dropWhile isPySpace).reverse.dropWhile isPySpace).reverse

/-- Python's `int(s, 16)` on an ASCII character list: `none` models the
`ValueError` raised on invalid literals. -/
def pyIntHex (l : List Char) : Option Int :=
  signedPart (stripWS l)

/-! ## `hex_to_rgb` (src/main.py lines 57-61)

```python
def hex_to_rgb(hex):
  h = hex.lstrip('#')
  r, g, b = (int(h[i:i + 2], 16) for i in (0, 2, 4))
  return r, g, b
```
`lstrip('#')` removes every leading `#`; `h[i:i+2]` is a (possibly short or
empty) slice; `none` models the `ValueError` escape. -/
def hex_to_rgb (s : String) : Option (Int × Int × Int) :=
  match pyIntHex (((s.data.dropWhile (fun c => c = '#')).drop 0).take 2),
        pyIntHex (((s.data.dropWhile (fun c => c = '#')).drop 2).take 2),
        pyIntHex (((s.data.dropWhile (fun c => c = '#')).drop 4).take 2) with
  | some r, some g, some b => some (r, g, b)
  | _, _, _ => none

/-! ## Effects

The hardware / network side effects the control code performs, in order. -/

/-- One observable side effect of the control code. -/
inductive Eff
  /-- `keypad.get_button_states()` — one button scan. -/
  | scanE
  /-- `requests.get(WEBHOOK_URL?value1=<label>)` — push a color choice. -/
  | pushE (label : String)
  /-- `time.sleep(secs)`. -/
  | sleepE (secs : Nat)
  /-- `pulse(times, fast)` — the brightness animation (modelled in detail
  by `pulse` below; here recorded as one call). -/
  | pulseE (times : Nat) (fast : Bool)
  /-- `illuminate_half(r, g, b)` — display a color on the display half. -/
  | displayE (r g b : Int)
  /-- `print(...)` of the caught error in the recovery path. -/
  | logE
  deriving Repr, DecidableEq

/-! ## Button-press identification (src/main.py lines 107-131)

```python
def check(seconds):
  global last_button_states, lit
  start_time = time.ticks_ms()
  while True:
    button_states = keypad.get_button_states()
    if last_button_states != button_states:
        last_button_states = button_states
        if button_states > 0:
          button = 0
          for find in range(0, 8):
            # check if this button is pressed and no other buttons are pressed
            if button_states & 0x01 > 0:
                if not (button_states & (~0x01)) > 0:
                  url = f"..."
                  requests.get(url)
                  time.sleep(END_TO_END_DELAY)
                  return
            button_states >>= 1
            button += 1
    current_time = time.ticks_ms()
    delta = current_time - start_time
    if delta > seconds * 1000:
      break
```
-/

/-- The `for find in range(0, 8)` loop: `bs` is the (destructively shifted)
button mask, `button` the current index.  Python's `bs & ~0x01` on a
nonnegative `bs` clears bit 0, i.e. equals `2 * (bs / 2)`. -/
def findLoop : Nat → Nat → Nat → Option Nat
  | 0, _, _ => none
  | fuel + 1, bs, button =>
    if bs &&& 1 > 0 ∧ ¬ (2 * (bs / 2) > 0) then some button
    else findLoop fuel (bs >>> 1) (button + 1)

/-- The press-identification step realized inside `check`: given the
previous and the current button mask, the button index the body would act
on (`none` when it acts on nothing).  The body runs the find loop only
when the mask changed (`last_button_states != button_states`) and is
nonzero. -/
def detectPress (previous current : Nat) : Option Nat :=
  if previous ≠ current ∧ current > 0 then findLoop 8 current 0 else none

/-- One iteration of `check`'s polling loop, as the embedding sees it: the
mask `keypad.get_button_states()` returned, and the elapsed-milliseconds
value `time.ticks_ms() - start_time` measured at the end of the iteration. -/
structure Scan where
  states : Nat
  delta : Nat
  deriving Repr, DecidableEq

/-- How a run of `check` ended. -/
inductive CheckRes
  /-- The body pushed button `i`'s label and returned. -/
  | pressed (i : Nat)
  /-- `delta > seconds * 1000` broke the loop. -/
  | timedOut
  /-- The supplied scan trace ran out (the real loop would keep polling). -/
  | starved
  deriving Repr, DecidableEq

/-- `check(seconds)`, driven by a finite trace of scans.  Returns the
effects performed, the final `last_button_states`, and how it ended. -/
def check (seconds : Nat) (last : Nat) : List Scan → List Eff × Nat × CheckRes
  | [] => ([], last, CheckRes.starved)
  | s :: rest =>
    let last1 := if last ≠ s.states then s.states else last
    match detectPress last s.states with
    | some button =>
      ([Eff.scanE, Eff.pushE (choiceLabels.getD button ""),
        Eff.sleepE END_TO_END_DELAY], last1, CheckRes.pressed button)
    | none =>
      if s.delta > seconds * 1000 then ([Eff.scanE], last1, CheckRes.timedOut)
      else
        let p := check seconds last1 rest
        (Eff.scanE :: p.1, p.2)

/-! ## The pulse animation (src/main.py lines 72-95)

```python
def pulse(times=1, fast=False):
  delay = 0.0009 if fast else 0.001
  step = 0.0005
  min_b = 0.1
  max_b = 1.0
  for _ in range(times):
    brightness = max_b
    while brightness > min_b:
      brightness -= step
      if brightness < min_b: brightness = min_b
      keypad.set_brightness(brightness); keypad.update(); time.sleep(delay)
    while brightness < max_b:
      brightness += step
      if brightness > max_b: brightness = max_b
      keypad.set_brightness(brightness); keypad.update(); time.sleep(delay)
```
The model records the sequence of values passed to
`keypad.set_brightness`; the per-step `time.sleep(delay)` (0.0009s fast,
0.001s normal) does not influence brightness. -/

/-- `min_b = 0.1`. -/
def min_b : ℚ := 1 / 10

/-- `max_b = 1.0`. -/
def max_b : ℚ := 1

/-- `step = 0.0005`. -/
def stepB : ℚ := 1 / 2000

/-- The decrement `while` loop: emitted brightness values and the final
value of the `brightness` variable. -/
def decLoop (b : ℚ) : List ℚ × ℚ :=
  if h : min_b < b then
    if h2 : b - stepB < min_b then
      let p := decLoop min_b
      (min_b :: p.1, p.2)
    else
      let p := decLoop (b - stepB)
      ((b - stepB) :: p.1, p.2)
  else ([], b)
termination_by (Int.ceil ((b - min_b) * 2000)).toNat
decreasing_by
· have h0 : (0 : ℚ) < (b - min_b) * 2000 := by
    have : (0 : ℚ) < b - min_b := by linarith
    linarith
  have h1 : 0 < Int.ceil ((b - min_b) * 2000) := Int.ceil_pos.mpr h0
  have h2 : Int.ceil ((min_b - min_b) * 2000 : ℚ) = 0 := by norm_num
  omega
· have key : (b - stepB - min_b) * 2000 = (b - min_b) * 2000 - 1 := by
    simp only [stepB]; ring
  have h1 : Int.ceil ((b - stepB - min_b) * 2000) = Int.ceil ((b - min_b) * 2000) - 1 := by
    rw [key, Int.ceil_sub_one]
  have h3 : (1 : ℚ) ≤ (b - min_b) * 2000 := by
    have : stepB ≤ b - min_b := by linarith
    simp only [stepB] at this; linarith
  have h4 : (1 : ℤ) ≤ Int.ceil ((b - min_b) * 2000) := by
    calc (1 : ℤ) = Int.ceil ((1 : ℚ)) := by norm_num
    _ ≤ Int.ceil ((b - min_b) * 2000) := Int.ceil_mono h3
  omega

/-- The increment `while` loop: emitted brightness values (its final
variable value is not consumed afterwards). -/
def incLoop (b : ℚ) : List ℚ :=
  if h : b < max_b then
    if h2 : max_b < b + stepB then max_b :: incLoop max_b
    else (b + stepB) :: incLoop (b + stepB)
  else []
termination_by (Int.ceil ((max_b - b) * 2000)).toNat
decreasing_by
· have h0 : (0 : ℚ) < (max_b - b) * 2000 := by
    have : (0 : ℚ) < max_b - b := by linarith
    linarith
  have h1 : 0 < Int.ceil ((max_b - b) * 2000) := Int.ceil_pos.mpr h0
  have h2 : Int.ceil ((max_b - max_b) * 2000 : ℚ) = 0 := by norm_num
  omega
· have key : (max_b - (b + stepB)) * 2000 = (max_b - b) * 2000 - 1 := by
    simp only [stepB]; ring
  have h1 : Int.ceil ((max_b - (b + stepB)) * 2000) = Int.ceil ((max_b - b) * 2000) - 1 := by
    rw [key, Int.ceil_sub_one]
  have h3 : (1 : ℚ) ≤ (max_b - b) * 2000 := by
    have : stepB ≤ max_b - b := by linarith
    simp only [stepB] at this; linarith
  have h4 : (1 : ℤ) ≤ Int.ceil ((max_b - b) * 2000) := by
    calc (1 : ℤ) = Int.ceil ((1 : ℚ)) := by norm_num
    _ ≤ Int.ceil ((max_b - b) * 2000) := Int.ceil_mono h3
  omega

/-- One `for` iteration: `brightness = max_b`, the decrement loop, then the
increment loop on the resulting `brightness`. -/
def pulseCycle : List ℚ :=
  let p := decLoop max_b
  p.1 ++ incLoop p.2

/-- `pulse(times, fast)` as the sequence of brightness values set; `fast`
selects only the sleep delay (0.0009 vs 0.001 seconds), which the
brightness trace does not depend on. -/
def pulse (times : Nat) (_fast : Bool) : List ℚ :=
  match times with
  | 0 => []
  | n + 1 => pulseCycle ++ pulse n _fast

/-! ## LED frame writes (src/main.py lines 64-68 and 98-104)

```python
def illuminate_half(r, g, b):
  for i in range(8, NUM_PADS):
    keypad.illuminate(i, r, g, b)
  keypad.update()

def setup_choices():
  index = 0
  choices = list(CHOICES.keys())
  for i in range(len(choices)):
    a, b, c = hex_to_rgb(choices[i])
    keypad.illuminate(i, a, b, c)
  keypad.update()
```
`NUM_PADS = keypad.get_num_pads()` is a hardware constant (16 on the Pico
RGB keypad); the model keeps it as a parameter. -/

/-- The `keypad.illuminate(i, r, g, b)` calls issued by
`illuminate_half(r, g, b)`: pixel index with the RGB written. -/
def illuminate_half (numPads : Nat) (r g b : Int) : List (Nat × Int × Int × Int) :=
  (List.range' 8 (numPads - 8)).map (fun i => (i, r, g, b))

/-- The `keypad.illuminate` calls issued by `setup_choices()` (the palette
keys all decode, so the `getD` defaults are never taken). -/
def setup_choices : List (Nat × Int × Int × Int) :=
  (List.range choiceKeys.length).map (fun i =>
    match hex_to_rgb (choiceKeys.getD i "") with
    | some (a, b, c) => (i, a, b, c)
    | none => (i, 0, 0, 0))

/-- Replay a list of pixel writes onto a frame (pixel index to RGB). -/
def applyWrites (frame : Nat → Int × Int × Int) :
    List (Nat × Int × Int × Int) → Nat → Int × Int × Int
  | [], j => frame j
  | (i, r, g, b) :: rest, j =>
    applyWrites (fun k => if k = i then (r, g, b) else frame k) rest j

/-! ## The main loop (src/main.py lines 146-181)

```python
previous = (255, 255, 255)
last_button_states = 0

while True:
  try:
    uasyncio.get_event_loop().run_until_complete(network_manager.client(...))
    response = requests.get(CHEERLIGHTS_URL)
    data = json.loads(response.text)
    hex = data['field2']
    if hex in MAPPINGS:
      hex = MAPPINGS[hex]
    r, g, b = hex_to_rgb(hex)
    pulse(5, True)
    illuminate_half(r, g, b)
    previous = (r, g, b)
    check(UPDATE_INTERVAL)
  except Exception as err:
    print(f"Unexpected ...")
    time.sleep(5)
    pass
```
-/

/-- The `if hex in MAPPINGS: hex = MAPPINGS[hex]` step. -/
def mapColor (hex : String) : String :=
  match MAPPINGS.lookup hex with
  | some m => m
  | none => hex

/-- The loop's mutable state: `previous` and `last_button_states`. -/
structure St where
  previous : Int × Int × Int
  lastButtonStates : Nat
  deriving Repr, DecidableEq

/-- The initial state (src/main.py lines 140-141). -/
def st0 : St := ⟨(255, 255, 255), 0⟩

/-- One iteration's external inputs: the outcome of the wifi connect, the
outcome of fetch + JSON-parse + field extraction (the `field2` string), and
the button scans `check` will see. -/
structure Env where
  connect : Except String Unit
  field2 : Except String String
  scans : List Scan

/-- The `try` body of one `while True` iteration: effects and next state,
or the raised error. -/
def loopBody (env : Env) (st : St) : Except String (List Eff × St) := do
  _ ← env.connect
  let s ← env.field2
  let hex := mapColor s
  match hex_to_rgb hex with
  | none => Except.error "ValueError"
  | some (r, g, b) =>
    let p := check UPDATE_INTERVAL st.lastButtonStates env.scans
    Except.ok ([Eff.pulseE 5 true, Eff.displayE r g b] ++ p.1, ⟨(r, g, b), p.2.1⟩)

/-- One full `while True` iteration including the `except` handler: on any
raised error it logs, sleeps 5 seconds, and leaves the state unchanged;
the next iteration then starts again at the connect step. -/
def loopIter (env : Env) (st : St) : List Eff × St :=
  match loopBody env st with
  | Except.ok r => r
  | Except.error _ => ([Eff.logE, Eff.sleepE 5], st)

/-! ## `encode` (spec §4.1)

Modelled from the spec: the source has no inverse of `hex_to_rgb`; spec
§4.1 specifies `encode(Color) -> hexString`: "inverse; always lower-case,
always 6 digits, always `#`-prefixed". -/

/-- Modelled from the spec: the lower-case hex character of a digit value
(`0-9` then `a-f`). -/
def hexDigitChar (n : Nat) : Char :=
  if n < 10 then Char.ofNat (48 + n) else Char.ofNat (87 + n)

/-- Modelled from the spec: `encode(Color) -> hexString` — lower-case,
6 digits, `#`-prefixed. -/
def encode (r g b : Nat) : String :=
  ⟨['#', hexDigitChar (r / 16), hexDigitChar (r % 16),
        hexDigitChar (g / 16), hexDigitChar (g % 16),
        hexDigitChar (b / 16), hexDigitChar (b % 16)]⟩

/-- ASCII lower-casing of a character (spec: "the lower-cased form"). -/
def lowerChar (c : Char) : Char :=
  if 65 ≤ c.toNat ∧ c.toNat ≤ 90 then Char.ofNat (c.toNat + 32) else c

/-! ## Helper lemmas: button detection -/

lemma findLoop_pow : ∀ i : Fin 8, findLoop 8 (2 ^ i.val) 0 = some i.val := by decide

lemma detectPress_pow (prev i : Nat) (hi : i < 8) (hne : prev ≠ 2 ^ i) :
    detectPress prev (2 ^ i) = some i := by
  have hpos : 0 < 2 ^ i := Nat.pos_pow_of_pos i (by norm_num)
  have : findLoop 8 (2 ^ i) 0 = some i := findLoop_pow ⟨i, hi⟩
  simp [detectPress, hne, hpos, this]

/-! ## Helper lemmas: check -/

lemma check_pressed_effects (seconds : Nat) :
    ∀ scans last i, (check seconds last scans).2.2 = CheckRes.pressed i →
      ∃ k, (check seconds last scans).1 =
        List.replicate k Eff.scanE ++
          [Eff.pushE (choiceLabels.getD i ""), Eff.sleepE END_TO_END_DELAY] := by
  intro scans
  induction scans with
  | nil => intro last i h; simp [check] at h
  | cons s rest ih =>
    intro last i h
    rcases hdp : detectPress last s.states with _ | button
    · by_cases htm : s.delta > seconds * 1000
      · simp [check, hdp, htm] at h
      · simp only [check, hdp, if_neg htm] at h ⊢
        obtain ⟨k, hk⟩ := ih _ i h
        exact ⟨k + 1, by rw [List.replicate_succ, List.cons_append, hk]⟩
    · simp only [check, hdp] at h ⊢
      obtain rfl : button = i := by simpa using h
      exact ⟨1, by simp⟩

lemma check_head_press (seconds last i d : Nat) (rest : List Scan)
    (hi : i < 8) (hne : last ≠ 2 ^ i) :
    check seconds last (⟨2 ^ i, d⟩ :: rest) =
      ([Eff.scanE, Eff.pushE (choiceLabels.getD i ""), Eff.sleepE END_TO_END_DELAY],
        2 ^ i, CheckRes.pressed i) := by
  simp [check, detectPress_pow last i hi hne, hne]

/-! ## Claim theorems: the press-identification step -/

/-- C1 (code bug): with no button previously pressed and buttons 0 and 2
both held (mask `0b101 = 2^0 + 2^2`, two bits set), the press-identification
step inside `check` resolves a press of button 2 — the code's "no other
buttons are pressed" test `button_states & (~0x01)` only sees the bits
above the current position, so a multi-button state does trigger a push,
contradicting the claim (and the code's own comment). -/
theorem detectPress_multiPress_resolves :
    detectPress 0 5 = some 2 ∧ (5 : Nat) = 2 ^ 0 + 2 ^ 2 := by
  constructor
  · rfl
  · rfl

/-- C8: the press-identification step is edge-triggered and returns the
0-based index of the single set bit: `detectPress 0 0b100 = some 2`;
`detectPress 0b100 0b100 = none` (unchanged, still held); and in general an
edge to a mask with exactly the bit `i < 8` set returns index `i`. -/
theorem detectPress_edge_singleBit :
    detectPress 0 4 = some 2 ∧ detectPress 4 4 = none ∧
      ∀ prev i : Nat, i < 8 → prev ≠ 2 ^ i → detectPress prev (2 ^ i) = some i := by
  refine ⟨rfl, rfl, fun prev i hi hne => detectPress_pow prev i hi hne⟩

/-- Witness for C8's theorem at `prev = 0`, `i = 2`. -/
theorem detectPress_edge_singleBit_witness :
    (2 : Nat) < 8 ∧ (0 : Nat) ≠ 2 ^ 2 ∧ detectPress 0 (2 ^ 2) = some 2 :=
  ⟨by decide, by decide,
    detectPress_edge_singleBit.2.2 0 2 (by decide) (by decide)⟩

/-- C5: a single qualifying button press during the `check` window causes
exactly one push whose label is the palette label at that button's index
(in `CHOICES` order), followed by the fixed 10-second propagation wait,
after which `check` returns (and the main loop proceeds to the next fetch):
(a) whenever a run of `check` ends in `pressed i`, its effects are some
button scans followed by exactly one push of label `i` and one
`sleep END_TO_END_DELAY`, and nothing after; (b) an edge to the single-bit
mask `2^i` makes `check` end in `pressed i` with exactly that effect
sequence. -/
theorem check_singlePress_pushesOnce :
    (∀ seconds last scans i,
        (check seconds last scans).2.2 = CheckRes.pressed i →
        ∃ k, (check seconds last scans).1 =
          List.replicate k Eff.scanE ++
            [Eff.pushE (choiceLabels.getD i ""), Eff.sleepE END_TO_END_DELAY]) ∧
    (∀ seconds last i d rest, i < 8 → last ≠ 2 ^ i →
        check seconds last (⟨2 ^ i, d⟩ :: rest) =
          ([Eff.scanE, Eff.pushE (choiceLabels.getD i ""),
            Eff.sleepE END_TO_END_DELAY], 2 ^ i, CheckRes.pressed i)) := by
  constructor
  · intro seconds last scans i h
    exact check_pressed_effects seconds scans last i h
  · intro seconds last i d rest hi hne
    exact check_head_press seconds last i d rest hi hne

/-- Witness for C5's theorem: a press of button 2 (mask `0b100`) during a
120-second window pushes the third palette label and sleeps 10 seconds. -/
theorem check_singlePress_pushesOnce_witness :
    (2 : Nat) < 8 ∧ (0 : Nat) ≠ 2 ^ 2 ∧
      check 120 0 [⟨2 ^ 2, 0⟩] =
        ([Eff.scanE, Eff.pushE (choiceLabels.getD 2 ""),
          Eff.sleepE END_TO_END_DELAY], 2 ^ 2, CheckRes.pressed 2) :=
  ⟨by decide, by decide,
    check_singlePress_pushesOnce.2 120 0 2 0 [] (by decide) (by decide)⟩

/-- C10: `check` evaluates its timeout only after a full scan-and-detect
iteration: (a) for every budget, a nonempty scan trace always yields at
least one button scan; (b) with budget 0 (already exhausted on entry), a
qualifying press on the very first scan is still detected and acted on. -/
theorem check_scanBeforeTimeout :
    (∀ seconds last s rest, Eff.scanE ∈ (check seconds last (s :: rest)).1) ∧
    (∀ last i d rest, i < 8 → last ≠ 2 ^ i →
        check 0 last (⟨2 ^ i, d⟩ :: rest) =
          ([Eff.scanE, Eff.pushE (choiceLabels.getD i ""),
            Eff.sleepE END_TO_END_DELAY], 2 ^ i, CheckRes.pressed i)) := by
  constructor
  · intro seconds last s rest
    rcases hdp : detectPress last s.states with _ | button
    · by_cases htm : s.delta > seconds * 1000
      · simp [check, hdp, htm]
      · simp [check, hdp, htm]
    · simp [check, hdp]
  · intro last i d rest hi hne
    exact check_head_press 0 last i d rest hi hne

/-- Witness for C10's theorem: with budget 0 a press on the first scan
(button 2, measured delta 999) is still pushed. -/
theorem check_scanBeforeTimeout_witness :
    (2 : Nat) < 8 ∧ (0 : Nat) ≠ 2 ^ 2 ∧
      check 0 0 [⟨2 ^ 2, 999⟩] =
        ([Eff.scanE, Eff.pushE (choiceLabels.getD 2 ""),
          Eff.sleepE END_TO_END_DELAY], 2 ^ 2, CheckRes.pressed 2) :=
  ⟨by decide, by decide,
    check_scanBeforeTimeout.2 0 2 999 [] (by decide) (by decide)⟩

/-! ## Claim theorems: the main loop (display and error recovery) -/

/-- C2 counterexample: for the pull response string `"#ffa500"` (which is
in the normalization table), the RGB triple passed to the display
operation is `(137, 89, 0)` — the decoding of the normalized `"#895900"` —
while the decoding of the un-normalized upstream string is `(255, 165, 0)`.
So the DISPLAYING step does not use the raw decoded upstream color. -/
theorem display_raw_color_cex :
    (loopIter ⟨Except.ok (), Except.ok "#ffa500", []⟩ st0).1 =
      [Eff.pulseE 5 true, Eff.displayE 137 89 0] ∧
    hex_to_rgb "#ffa500" = some (255, 165, 0) ∧
    (137, 89, 0) ≠ ((255, 165, 0) : Int × Int × Int) := by
  refine ⟨rfl, by decide, by decide⟩

/-- C2 (amended): normalization is applied on ingest, before display — for
every fetched upstream hex string, the RGB triple passed to the display
operation is the decoding of the *normalized* string (the `MAPPINGS` image
when present), and that triple becomes the new `previous`. -/
theorem display_uses_normalized_color (env : Env) (st : St) (s : String)
    (r g b : Int) (hconn : env.connect = Except.ok ())
    (hfield : env.field2 = Except.ok s)
    (hrgb : hex_to_rgb (mapColor s) = some (r, g, b)) :
    (loopIter env st).1 =
      [Eff.pulseE 5 true, Eff.displayE r g b] ++
        (check UPDATE_INTERVAL st.lastButtonStates env.scans).1 ∧
    (loopIter env st).2.previous = (r, g, b) := by
  rcases env with ⟨c, f, scans⟩
  simp only at hconn hfield
  subst hconn hfield
  simp [loopIter, loopBody, Bind.bind, Except.bind, hrgb]

/-- Witness for C2's amended theorem at the normalization-table input
`"#ffa500"` (display shows the RGB of `"#895900"`). -/
theorem display_uses_normalized_color_witness :
    (⟨Except.ok (), Except.ok "#ffa500", []⟩ : Env).connect = Except.ok () ∧
    (⟨Except.ok (), Except.ok "#ffa500", []⟩ : Env).field2 = Except.ok "#ffa500" ∧
    hex_to_rgb (mapColor "#ffa500") = some (137, 89, 0) ∧
    (loopIter ⟨Except.ok (), Except.ok "#ffa500", []⟩ st0).1 =
      [Eff.pulseE 5 true, Eff.displayE 137 89 0] ++
        (check UPDATE_INTERVAL st0.lastButtonStates []).1 ∧
    (loopIter ⟨Except.ok (), Except.ok "#ffa500", []⟩ st0).2.previous =
      (137, 89, 0) := by
  refine ⟨rfl, rfl, by decide, ?_⟩
  exact display_uses_normalized_color ⟨Except.ok (), Except.ok "#ffa500", []⟩
    st0 "#ffa500" 137 89 0 rfl rfl (by decide)

/-- C7: every error raised during the connect (CONNECTING) or
fetch/parse/decode (FETCHING) part of an iteration is caught by the
iteration's handler, which logs, sleeps the fixed 5-second backoff, and
leaves the state unchanged — the next iteration then starts again at the
connect step; `loopIter` is a total function, so no error escapes the
loop. -/
theorem loop_errors_recovered :
    (∀ env st e, env.connect = Except.error e →
        loopIter env st = ([Eff.logE, Eff.sleepE 5], st)) ∧
    (∀ env st e, env.connect = Except.ok () → env.field2 = Except.error e →
        loopIter env st = ([Eff.logE, Eff.sleepE 5], st)) ∧
    (∀ env st s, env.connect = Except.ok () → env.field2 = Except.ok s →
        hex_to_rgb (mapColor s) = none →
        loopIter env st = ([Eff.logE, Eff.sleepE 5], st)) := by
  refine ⟨?_, ?_, ?_⟩
  · intro env st e h
    rcases env with ⟨c, f, scans⟩
    simp only at h
    subst h
    simp [loopIter, loopBody, Bind.bind, Except.bind]
  · intro env st e hc h
    rcases env with ⟨c, f, scans⟩
    simp only at hc h
    subst hc h
    simp [loopIter, loopBody, Bind.bind, Except.bind]
  · intro env st s hc hf hrgb
    rcases env with ⟨c, f, scans⟩
    simp only at hc hf
    subst hc hf
    simp [loopIter, loopBody, Bind.bind, Except.bind, hrgb]

/-- Witness for C7's theorem: a connect failure and a fetch failure, each
recovered with a log and a 5-second sleep. -/
theorem loop_errors_recovered_witness :
    (⟨Except.error "no wifi", Except.ok "#ff0000", []⟩ : Env).connect =
        Except.error "no wifi" ∧
    loopIter ⟨Except.error "no wifi", Except.ok "#ff0000", []⟩ st0 =
      ([Eff.logE, Eff.sleepE 5], st0) ∧
    loopIter ⟨Except.ok (), Except.error "HTTP 500", []⟩ st0 =
      ([Eff.logE, Eff.sleepE 5], st0) :=
  ⟨rfl,
    loop_errors_recovered.1 ⟨Except.error "no wifi", Except.ok "#ff0000", []⟩
      st0 "no wifi" rfl,
    loop_errors_recovered.2.1 ⟨Except.ok (), Except.error "HTTP 500", []⟩
      st0 "HTTP 500" rfl rfl⟩

/-! ## Claim theorems: LED frame effect -/

lemma applyWrites_map_const (r g b : Int) :
    ∀ (idxs : List Nat) (frame : Nat → Int × Int × Int) (j : Nat),
      applyWrites frame (idxs.map (fun i => (i, r, g, b))) j =
        if j ∈ idxs then (r, g, b) else frame j := by
  intro idxs
  induction idxs with
  | nil => intro frame j; simp [applyWrites]
  | cons i0 rest ih =>
    intro frame j
    by_cases hj : j ∈ rest
    · simp [applyWrites, ih, hj]
    · by_cases hji : j = i0
      · simp [applyWrites, ih, hj, hji]
      · simp [applyWrites, ih, hj, hji]

/-- C9: the display operation `illuminate_half` writes only the contiguous
display half of the LED bank: (a) every pixel write it issues has index in
`[8, NUM_PADS)`; (b) replaying its writes on any frame leaves every
indicator pixel `i < 8` unchanged; (c) it covers the display half — every
pixel in `[8, NUM_PADS)` receives the new color; (d) the startup
`setup_choices` paints only indicator pixels (`i < 8`). -/
theorem illuminate_half_onlyDisplayHalf :
    (∀ numPads (r g b : Int) w, w ∈ illuminate_half numPads r g b →
        8 ≤ w.1 ∧ w.1 < numPads) ∧
    (∀ numPads (r g b : Int) frame i, i < 8 →
        applyWrites frame (illuminate_half numPads r g b) i = frame i) ∧
    (∀ numPads (r g b : Int) frame i, 8 ≤ i → i < numPads →
        applyWrites frame (illuminate_half numPads r g b) i = (r, g, b)) ∧
    (∀ w, w ∈ setup_choices → w.1 < 8) := by
  refine ⟨?_, ?_, ?_, ?_⟩
  · intro numPads r g b w hw
    simp only [illuminate_half, List.mem_map] at hw
    obtain ⟨i, hi, rfl⟩ := hw
    have := List.mem_range'_1.mp hi
    exact ⟨this.1, by omega⟩
  · intro numPads r g b frame i hi
    rw [illuminate_half, applyWrites_map_const]
    have : i ∉ List.range' 8 (numPads - 8) := by
      intro hmem
      have := List.mem_range'_1.mp hmem
      omega
    simp [this]
  · intro numPads r g b frame i hi8 hiN
    rw [illuminate_half, applyWrites_map_const]
    have : i ∈ List.range' 8 (numPads - 8) := List.mem_range'_1.mpr (by omega)
    simp [this]
  · decide

/-- Witness for C9's theorem on the real hardware size `NUM_PADS = 16`:
pixel 0 is untouched by a display call, pixel 8 gets the new color. -/
theorem illuminate_half_onlyDisplayHalf_witness :
    (0 : Nat) < 8 ∧ (8 : Nat) ≤ 8 ∧ (8 : Nat) < 16 ∧
    applyWrites (fun _ => (1, 2, 3)) (illuminate_half 16 255 165 0) 0 =
      (1, 2, 3) ∧
    applyWrites (fun _ => (1, 2, 3)) (illuminate_half 16 255 165 0) 8 =
      (255, 165, 0) :=
  ⟨by decide, by decide, by decide,
    illuminate_half_onlyDisplayHalf.2.1 16 255 165 0 (fun _ => (1, 2, 3)) 0
      (by decide),
    illuminate_half_onlyDisplayHalf.2.2.1 16 255 165 0 (fun _ => (1, 2, 3)) 8
      (by decide) (by decide)⟩

/-! ## Helper lemmas: the hex codec -/

lemma hexVal_ranges (c : Char) (a : Nat) (h : hexVal c = some a) :
    (48 ≤ c.toNat ∧ c.toNat ≤ 57 ∧ a = c.toNat - 48) ∨
    (97 ≤ c.toNat ∧ c.toNat ≤ 102 ∧ a = c.toNat - 87) ∨
    (65 ≤ c.toNat ∧ c.toNat ≤ 70 ∧ a = c.toNat - 55) := by
  unfold hexVal at h
  split_ifs at h with h1 h2 h3
  · exact Or.inl ⟨h1.1, h1.2, (Option.some.inj h).symm⟩
  · exact Or.inr (Or.inl ⟨h2.1, h2.2, (Option.some.inj h).symm⟩)
  · exact Or.inr (Or.inr ⟨h3.1, h3.2, (Option.some.inj h).symm⟩)

lemma hexVal_lt16 (c : Char) (a : Nat) (h : hexVal c = some a) : a < 16 := by
  rcases hexVal_ranges c a h with ⟨_, _, rfl⟩ | ⟨_, _, rfl⟩ | ⟨_, _, rfl⟩ <;> omega

lemma hexVal_ne_chars (c : Char) (a : Nat) (h : hexVal c = some a) :
    c ≠ '+' ∧ c ≠ '-' ∧ c ≠ 'x' ∧ c ≠ 'X' ∧ c ≠ '_' ∧ c ≠ '#' := by
  rcases hexVal_ranges c a h with ⟨h1, h2, _⟩ | ⟨h1, h2, _⟩ | ⟨h1, h2, _⟩ <;>
    refine ⟨?_, ?_, ?_, ?_, ?_, ?_⟩ <;>
    · rintro rfl
      revert h1 h2
      decide

lemma hexVal_not_space (c : Char) (a : Nat) (h : hexVal c = some a) :
    isPySpace c = false := by
  have h48 : 48 ≤ c.toNat := by
    rcases hexVal_ranges c a h with ⟨h1, _, _⟩ | ⟨h1, _, _⟩ | ⟨h1, _, _⟩ <;> omega
  unfold isPySpace
  by_cases e1 : c = ' '
  · subst e1; revert h48; decide
  by_cases e2 : c = '\t'
  · subst e2; revert h48; decide
  by_cases e3 : c = '\n'
  · subst e3; revert h48; decide
  by_cases e4 : c = '\r'
  · subst e4; revert h48; decide
  by_cases e5 : c = '\x0b'
  · subst e5; revert h48; decide
  by_cases e6 : c = '\x0c'
  · subst e6; revert h48; decide
  simp [e1, e2, e3, e4, e5, e6]

lemma stripWS_pair (c d : Char) (hc : isPySpace c = false)
    (hd : isPySpace d = false) : stripWS [c, d] = [c, d] := by
  simp [stripWS, List.dropWhile, hc, hd]

lemma stripWS_single (c : Char) (hc : isPySpace c = false) :
    stripWS [c] = [c] := by
  simp [stripWS, List.dropWhile, hc]

lemma hexDigitsStart_pair (c d : Char) (a b : Nat)
    (hc : hexVal c = some a) (hd : hexVal d = some b) :
    hexDigitsStart [c, d] = some (16 * a + b) := by
  simp only [hexDigitsStart, hc, hexDigitsCore, hd]

lemma hexDigitsStart_single (c : Char) (a : Nat) (hc : hexVal c = some a) :
    hexDigitsStart [c] = some a := by
  simp only [hexDigitsStart, hc, hexDigitsCore]

lemma unsignedPart_pair (c d : Char) (a b : Nat)
    (hc : hexVal c = some a) (hd : hexVal d = some b) :
    unsignedPart [c, d] = some (16 * a + b) := by
  obtain ⟨-, -, hdx, hdX, -, -⟩ := hexVal_ne_chars d b hd
  rw [unsignedPart.eq_def]
  split
  · rename_i rest heq
    rw [List.cons.injEq, List.cons.injEq] at heq
    exact absurd heq.2.1 hdx
  · rename_i rest heq
    rw [List.cons.injEq, List.cons.injEq] at heq
    exact absurd heq.2.1 hdX
  · exact hexDigitsStart_pair c d a b hc hd

lemma unsignedPart_single (c : Char) (a : Nat) (hc : hexVal c = some a) :
    unsignedPart [c] = some a := by
  rw [unsignedPart.eq_def]
  split
  · rename_i rest heq
    rw [List.cons.injEq] at heq
    exact absurd heq.2 (by simp)
  · rename_i rest heq
    rw [List.cons.injEq] at heq
    exact absurd heq.2 (by simp)
  · exact hexDigitsStart_single c a hc

lemma pyIntHex_pair (c d : Char) (a b : Nat)
    (hc : hexVal c = some a) (hd : hexVal d = some b) :
    pyIntHex [c, d] = some ((16 * a + b : Nat) : Int) := by
  obtain ⟨hcp, hcm, -, -, -, -⟩ := hexVal_ne_chars c a hc
  unfold pyIntHex
  rw [stripWS_pair c d (hexVal_not_space c a hc) (hexVal_not_space d b hd)]
  rw [signedPart.eq_def]
  split
  · rename_i rest heq
    rw [List.cons.injEq] at heq
    exact absurd heq.1 hcp
  · rename_i rest heq
    rw [List.cons.injEq] at heq
    exact absurd heq.1 hcm
  · rw [unsignedPart_pair c d a b hc hd]; rfl

lemma pyIntHex_single (c : Char) (a : Nat) (hc : hexVal c = some a) :
    pyIntHex [c] = some ((a : Nat) : Int) := by
  obtain ⟨hcp, hcm, -, -, -, -⟩ := hexVal_ne_chars c a hc
  unfold pyIntHex
  rw [stripWS_single c (hexVal_not_space c a hc)]
  rw [signedPart.eq_def]
  split
  · rename_i rest heq
    rw [List.cons.injEq] at heq
    exact absurd heq.1 hcp
  · rename_i rest heq
    rw [List.cons.injEq] at heq
    exact absurd heq.1 hcm
  · rw [unsignedPart_single c a hc]; rfl

lemma hexVal_hexDigitChar : ∀ n : Nat, n < 16 → hexVal (hexDigitChar n) = some n := by
  decide

lemma hexDigitChar_lower (c : Char) (a : Nat) (h : hexVal c = some a) :
    hexDigitChar a = lowerChar c := by
  rcases hexVal_ranges c a h with ⟨h1, h2, rfl⟩ | ⟨h1, h2, rfl⟩ | ⟨h1, h2, rfl⟩
  · unfold hexDigitChar lowerChar
    rw [if_pos (by omega), if_neg (by omega),
      show 48 + (c.toNat - 48) = c.toNat by omega, Char.ofNat_toNat]
  · unfold hexDigitChar lowerChar
    rw [if_neg (by omega), if_neg (by omega),
      show 87 + (c.toNat - 87) = c.toNat by omega, Char.ofNat_toNat]
  · unfold hexDigitChar lowerChar
    rw [if_neg (by omega), if_pos (by omega),
      show 87 + (c.toNat - 55) = c.toNat + 32 by omega]

lemma hex_to_rgb_six (s : String) (c1 c2 c3 c4 c5 c6 : Char) (rest : List Char)
    (a1 a2 a3 a4 a5 a6 : Nat)
    (hstrip : s.data.dropWhile (fun c => c = '#') =
      c1 :: c2 :: c3 :: c4 :: c5 :: c6 :: rest)
    (h1 : hexVal c1 = some a1) (h2 : hexVal c2 = some a2)
    (h3 : hexVal c3 = some a3) (h4 : hexVal c4 = some a4)
    (h5 : hexVal c5 = some a5) (h6 : hexVal c6 = some a6) :
    hex_to_rgb s = some (((16 * a1 + a2 : Nat) : Int),
      ((16 * a3 + a4 : Nat) : Int), ((16 * a5 + a6 : Nat) : Int)) := by
  unfold hex_to_rgb
  rw [hstrip]
  rw [show ((c1::c2::c3::c4::c5::c6::rest).drop 0).take 2 = [c1, c2] from rfl,
    show ((c1::c2::c3::c4::c5::c6::rest).drop 2).take 2 = [c3, c4] from rfl,
    show ((c1::c2::c3::c4::c5::c6::rest).drop 4).take 2 = [c5, c6] from rfl,
    pyIntHex_pair c1 c2 a1 a2 h1 h2, pyIntHex_pair c3 c4 a3 a4 h3 h4,
    pyIntHex_pair c5 c6 a5 a6 h5 h6]

/-! ## Claim theorems: the hex codec -/

/-- C3 counterexample: `hex_to_rgb` does not reject every string that is
not exactly 6 hex digits after stripping: the 8-hex-digit string
`"ff00ff00"` decodes to `(255, 0, 255)` (the two extra digits are silently
ignored) and the 5-hex-digit string `"fffff"` decodes to `(255, 255, 15)`
(the final group degenerates to one digit), where the claim demands a
`MalformedColor` failure for both. -/
theorem hex_to_rgb_rejects_cex :
    hex_to_rgb "ff00ff00" = some (255, 0, 255) ∧
    ("ff00ff00".data.dropWhile (fun c => c = '#')).length = 8 ∧
    hex_to_rgb "fffff" = some (255, 255, 15) ∧
    ("fffff".data.dropWhile (fun c => c = '#')).length = 5 := by
  refine ⟨by decide, by decide, by decide, by decide⟩

/-- C3 (amended): `hex_to_rgb` strips all leading `#` and parses the
character slices `[0:2]`, `[2:4]`, `[4:6]` with Python's `int(-, 16)`:
(a) every string whose first six post-strip characters are hex digits
decodes successfully — even when followed by extra characters, which are
ignored rather than rejected; (b) every string with at most four
characters after stripping fails (the third slice is empty); (c) a
5-hex-digit string decodes with the last group read as a single digit. -/
theorem hex_to_rgb_amended :
    (∀ (s : String) (c1 c2 c3 c4 c5 c6 : Char) (rest : List Char)
        (a1 a2 a3 a4 a5 a6 : Nat),
        s.data.dropWhile (fun c => c = '#') = c1 :: c2 :: c3 :: c4 :: c5 :: c6 :: rest →
        hexVal c1 = some a1 → hexVal c2 = some a2 → hexVal c3 = some a3 →
        hexVal c4 = some a4 → hexVal c5 = some a5 → hexVal c6 = some a6 →
        hex_to_rgb s = some (((16 * a1 + a2 : Nat) : Int),
          ((16 * a3 + a4 : Nat) : Int), ((16 * a5 + a6 : Nat) : Int))) ∧
    (∀ s : String, (s.data.dropWhile (fun c => c = '#')).length ≤ 4 →
        hex_to_rgb s = none) ∧
    (∀ (s : String) (c1 c2 c3 c4 c5 : Char) (a1 a2 a3 a4 a5 : Nat),
        s.data.dropWhile (fun c => c = '#') = [c1, c2, c3, c4, c5] →
        hexVal c1 = some a1 → hexVal c2 = some a2 → hexVal c3 = some a3 →
        hexVal c4 = some a4 → hexVal c5 = some a5 →
        hex_to_rgb s = some (((16 * a1 + a2 : Nat) : Int),
          ((16 * a3 + a4 : Nat) : Int), ((a5 : Nat) : Int))) := by
  refine ⟨?_, ?_, ?_⟩
  · intro s c1 c2 c3 c4 c5 c6 rest a1 a2 a3 a4 a5 a6 hstrip h1 h2 h3 h4 h5 h6
    exact hex_to_rgb_six s c1 c2 c3 c4 c5 c6 rest a1 a2 a3 a4 a5 a6
      hstrip h1 h2 h3 h4 h5 h6
  · intro s hlen
    unfold hex_to_rgb
    have hnil : ((s.data.dropWhile (fun c => c = '#')).drop 4).take 2 = [] := by
      have : (s.data.dropWhile (fun c => c = '#')).drop 4 = [] :=
        List.drop_eq_nil_of_le hlen
      rw [this]; rfl
    rw [hnil]
    rcases pyIntHex (((s.data.dropWhile (fun c => c = '#')).drop 0).take 2) with _ | r <;>
      rcases pyIntHex (((s.data.dropWhile (fun c => c = '#')).drop 2).take 2) with _ | g <;>
      rfl
  · intro s c1 c2 c3 c4 c5 a1 a2 a3 a4 a5 hstrip h1 h2 h3 h4 h5
    unfold hex_to_rgb
    rw [hstrip]
    rw [show (([c1,c2,c3,c4,c5]).drop 0).take 2 = [c1, c2] from rfl,
      show (([c1,c2,c3,c4,c5]).drop 2).take 2 = [c3, c4] from rfl,
      show (([c1,c2,c3,c4,c5]).drop 4).take 2 = [c5] from rfl,
      pyIntHex_pair c1 c2 a1 a2 h1 h2, pyIntHex_pair c3 c4 a3 a4 h3 h4,
      pyIntHex_single c5 a5 h5]

/-- Witness for C3's amended theorem: `"#ffa500"` (part a, six hex digits),
`"abc"` (part b, three characters), `"fffff"` (part c, five digits). -/
theorem hex_to_rgb_amended_witness :
    "#ffa500".data.dropWhile (fun c => c = '#') =
      'f' :: 'f' :: 'a' :: '5' :: '0' :: '0' :: ([] : List Char) ∧
    hexVal 'f' = some 15 ∧ hexVal 'a' = some 10 ∧ hexVal '5' = some 5 ∧
    hexVal '0' = some 0 ∧
    hex_to_rgb "#ffa500" = some (((16 * 15 + 15 : Nat) : Int),
      ((16 * 10 + 5 : Nat) : Int), ((16 * 0 + 0 : Nat) : Int)) ∧
    ("abc".data.dropWhile (fun c => c = '#')).length ≤ 4 ∧
    hex_to_rgb "abc" = none :=
  ⟨by decide, by decide, by decide, by decide, by decide,
    hex_to_rgb_amended.1 "#ffa500" 'f' 'f' 'a' '5' '0' '0' [] 15 15 10 5 0 0
      (by decide) (by decide) (by decide) (by decide) (by decide) (by decide)
      (by decide),
    by decide,
    hex_to_rgb_amended.2.1 "abc" (by decide)⟩

/-- C4: with `encode` modelled from spec §4.1 (lower-case, 6 digits,
`#`-prefixed), the codec round-trips both ways: (a) for every representable
Color (channels in 0..255), `hex_to_rgb (encode r g b) = some (r, g, b)`;
(b) for every valid 6-hex-digit string (optionally `#`-prefixed),
`encode` of its decoding equals its lower-cased `#`-prefixed form. -/
theorem encode_decode_roundtrip :
    (∀ r g b : Nat, r ≤ 255 → g ≤ 255 → b ≤ 255 →
        hex_to_rgb (encode r g b) = some ((r : Int), (g : Int), (b : Int))) ∧
    (∀ (s : String) (c1 c2 c3 c4 c5 c6 : Char) (a1 a2 a3 a4 a5 a6 : Nat),
        s.data.dropWhile (fun c => c = '#') = [c1, c2, c3, c4, c5, c6] →
        hexVal c1 = some a1 → hexVal c2 = some a2 → hexVal c3 = some a3 →
        hexVal c4 = some a4 → hexVal c5 = some a5 → hexVal c6 = some a6 →
        hex_to_rgb s = some (((16 * a1 + a2 : Nat) : Int),
          ((16 * a3 + a4 : Nat) : Int), ((16 * a5 + a6 : Nat) : Int)) ∧
        encode (16 * a1 + a2) (16 * a3 + a4) (16 * a5 + a6) =
          String.mk ('#' :: ([c1, c2, c3, c4, c5, c6].map lowerChar))) := by
  constructor
  · intro r g b hr hg hb
    have hr1 : r / 16 < 16 := by omega
    have hr2 : r % 16 < 16 := by omega
    have hg1 : g / 16 < 16 := by omega
    have hg2 : g % 16 < 16 := by omega
    have hb1 : b / 16 < 16 := by omega
    have hb2 : b % 16 < 16 := by omega
    have hne : hexDigitChar (r / 16) ≠ '#' :=
      (hexVal_ne_chars _ _ (hexVal_hexDigitChar _ hr1)).2.2.2.2.2
    have hstrip : (encode r g b).data.dropWhile (fun c => c = '#') =
        hexDigitChar (r / 16) :: hexDigitChar (r % 16) :: hexDigitChar (g / 16) ::
        hexDigitChar (g % 16) :: hexDigitChar (b / 16) :: hexDigitChar (b % 16) ::
        ([] : List Char) := by
      rw [show (encode r g b).data =
        '#' :: hexDigitChar (r / 16) :: hexDigitChar (r % 16) ::
          hexDigitChar (g / 16) :: hexDigitChar (g % 16) ::
          hexDigitChar (b / 16) :: hexDigitChar (b % 16) :: [] from rfl]
      simp [List.dropWhile_cons, hne]
    have hsix := hex_to_rgb_six (encode r g b) _ _ _ _ _ _ [] (r / 16) (r % 16)
      (g / 16) (g % 16) (b / 16) (b % 16) hstrip
      (hexVal_hexDigitChar _ hr1) (hexVal_hexDigitChar _ hr2)
      (hexVal_hexDigitChar _ hg1) (hexVal_hexDigitChar _ hg2)
      (hexVal_hexDigitChar _ hb1) (hexVal_hexDigitChar _ hb2)
    rw [show 16 * (r / 16) + r % 16 = r by omega,
      show 16 * (g / 16) + g % 16 = g by omega,
      show 16 * (b / 16) + b % 16 = b by omega] at hsix
    exact hsix
  · intro s c1 c2 c3 c4 c5 c6 a1 a2 a3 a4 a5 a6 hstrip h1 h2 h3 h4 h5 h6
    constructor
    · exact hex_to_rgb_six s c1 c2 c3 c4 c5 c6 [] a1 a2 a3 a4 a5 a6
        hstrip h1 h2 h3 h4 h5 h6
    · have e1 : (16 * a1 + a2) / 16 = a1 := by
        have := hexVal_lt16 c2 a2 h2; omega
      have e2 : (16 * a1 + a2) % 16 = a2 := by
        have := hexVal_lt16 c2 a2 h2; omega
      have e3 : (16 * a3 + a4) / 16 = a3 := by
        have := hexVal_lt16 c4 a4 h4; omega
      have e4 : (16 * a3 + a4) % 16 = a4 := by
        have := hexVal_lt16 c4 a4 h4; omega
      have e5 : (16 * a5 + a6) / 16 = a5 := by
        have := hexVal_lt16 c6 a6 h6; omega
      have e6 : (16 * a5 + a6) % 16 = a6 := by
        have := hexVal_lt16 c6 a6 h6; omega
      unfold encode
      rw [e1, e2, e3, e4, e5, e6,
        hexDigitChar_lower c1 a1 h1, hexDigitChar_lower c2 a2 h2,
        hexDigitChar_lower c3 a3 h3, hexDigitChar_lower c4 a4 h4,
        hexDigitChar_lower c5 a5 h5, hexDigitChar_lower c6 a6 h6]
      rfl

/-- Witness for C4's theorem: the Color `(255, 165, 0)` and the mixed-case
string `"#FFA500"` (whose lower-cased form is `"#ffa500"`). -/
theorem encode_decode_roundtrip_witness :
    (255 : Nat) ≤ 255 ∧ (165 : Nat) ≤ 255 ∧ (0 : Nat) ≤ 255 ∧
    hex_to_rgb (encode 255 165 0) = some ((255 : Int), (165 : Int), (0 : Int)) ∧
    "#FFA500".data.dropWhile (fun c => c = '#') = ['F', 'F', 'A', '5', '0', '0'] ∧
    hex_to_rgb "#FFA500" = some (((16 * 15 + 15 : Nat) : Int),
      ((16 * 10 + 5 : Nat) : Int), ((16 * 0 + 0 : Nat) : Int)) ∧
    encode (16 * 15 + 15) (16 * 10 + 5) (16 * 0 + 0) =
      String.mk ('#' :: (['F', 'F', 'A', '5', '0', '0'].map lowerChar)) :=
  ⟨by decide, by decide, by decide,
    encode_decode_roundtrip.1 255 165 0 (by decide) (by decide) (by decide),
    by decide,
    (encode_decode_roundtrip.2 "#FFA500" 'F' 'F' 'A' '5' '0' '0' 15 15 10 5 0 0
      (by decide) (by decide) (by decide) (by decide) (by decide) (by decide)
      (by decide)).1,
    (encode_decode_roundtrip.2 "#FFA500" 'F' 'F' 'A' '5' '0' '0' 15 15 10 5 0 0
      (by decide) (by decide) (by decide) (by decide) (by decide) (by decide)
      (by decide)).2⟩

/-! ## Helper lemmas: pulse -/

lemma decLoop_mem (b : ℚ) : ∀ x ∈ (decLoop b).1, min_b ≤ x ∧ x ≤ b := by
  induction b using decLoop.induct with
  | case1 b h h2 ih =>
    intro x hx
    rw [decLoop.eq_def] at hx
    rw [dif_pos h, dif_pos h2] at hx
    simp only [List.mem_cons] at hx
    rcases hx with rfl | hx
    · exact ⟨le_refl _, le_of_lt h⟩
    · obtain ⟨h1x, h2x⟩ := ih x hx
      exact ⟨h1x, le_trans h2x (le_of_lt h)⟩
  | case2 b h h2 ih =>
    intro x hx
    rw [decLoop.eq_def] at hx
    rw [dif_pos h, dif_neg h2] at hx
    simp only [List.mem_cons] at hx
    have hstep : (0 : ℚ) ≤ stepB := by norm_num [stepB]
    rcases hx with rfl | hx
    · exact ⟨not_lt.mp h2, by linarith⟩
    · obtain ⟨h1x, h2x⟩ := ih x hx
      exact ⟨h1x, by linarith⟩
  | case3 b h =>
    intro x hx
    rw [decLoop.eq_def] at hx
    rw [dif_neg h] at hx
    simp at hx

lemma decLoop_snd (b : ℚ) : min_b ≤ b → (decLoop b).2 = min_b := by
  induction b using decLoop.induct with
  | case1 b h h2 ih =>
    intro _
    rw [decLoop.eq_def, dif_pos h, dif_pos h2]
    exact ih (le_refl _)
  | case2 b h h2 ih =>
    intro _
    rw [decLoop.eq_def, dif_pos h, dif_neg h2]
    exact ih (not_lt.mp h2)
  | case3 b h =>
    intro hb
    rw [decLoop.eq_def, dif_neg h]
    exact le_antisymm (not_lt.mp h) hb

lemma incLoop_mem (b : ℚ) : min_b ≤ b → ∀ x ∈ incLoop b, min_b ≤ x ∧ x ≤ max_b := by
  induction b using incLoop.induct with
  | case1 b h h2 ih =>
    intro hb x hx
    rw [incLoop.eq_def, dif_pos h, dif_pos h2] at hx
    rcases List.mem_cons.mp hx with rfl | hx
    · exact ⟨by norm_num [min_b, max_b], le_refl _⟩
    · exact ih (by norm_num [min_b, max_b]) x hx
  | case2 b h h2 ih =>
    intro hb x hx
    rw [incLoop.eq_def, dif_pos h, dif_neg h2] at hx
    have hstep : (0 : ℚ) ≤ stepB := by norm_num [stepB]
    rcases List.mem_cons.mp hx with rfl | hx
    · exact ⟨by linarith, not_lt.mp h2⟩
    · exact ih (by linarith) x hx
  | case3 b h =>
    intro hb x hx
    rw [incLoop.eq_def, dif_neg h] at hx
    simp at hx

lemma incLoop_ne_nil (b : ℚ) (h : b < max_b) : incLoop b ≠ [] := by
  rw [incLoop.eq_def, dif_pos h]
  by_cases h2 : max_b < b + stepB
  · rw [dif_pos h2]; simp
  · rw [dif_neg h2]; simp

lemma incLoop_closed : incLoop max_b = [] := by
  rw [incLoop.eq_def, dif_neg (lt_irrefl max_b)]

lemma incLoop_last (b : ℚ) : b < max_b → (incLoop b).getLast? = some max_b := by
  induction b using incLoop.induct with
  | case1 b h h2 ih =>
    intro _
    rw [incLoop.eq_def, dif_pos h, dif_pos h2, incLoop_closed]
    rfl
  | case2 b h h2 ih =>
    intro _
    rw [incLoop.eq_def, dif_pos h, dif_neg h2]
    by_cases hlt : b + stepB < max_b
    · calc ((b + stepB) :: incLoop (b + stepB)).getLast?
          = ([b + stepB] ++ incLoop (b + stepB)).getLast? := rfl
        _ = (incLoop (b + stepB)).getLast? :=
            List.getLast?_append_of_ne_nil _ (incLoop_ne_nil _ hlt)
        _ = some max_b := ih hlt
    · have heq : b + stepB = max_b := le_antisymm (not_lt.mp h2) (not_lt.mp hlt)
      rw [heq, incLoop_closed]
      rfl
  | case3 b h =>
    intro hb
    exact absurd hb h

lemma pulseCycle_mem : ∀ x ∈ pulseCycle, min_b ≤ x ∧ x ≤ max_b := by
  intro x hx
  simp only [pulseCycle] at hx
  rcases List.mem_append.mp hx with hx | hx
  · exact decLoop_mem max_b x hx
  · rw [decLoop_snd max_b (by norm_num [min_b, max_b])] at hx
    exact incLoop_mem min_b (le_refl _) x hx

lemma pulseCycle_last : pulseCycle.getLast? = some max_b := by
  have hlt : min_b < max_b := by norm_num [min_b, max_b]
  simp only [pulseCycle]
  rw [decLoop_snd max_b (le_of_lt hlt)]
  rw [List.getLast?_append_of_ne_nil _ (incLoop_ne_nil min_b hlt)]
  exact incLoop_last min_b hlt

lemma pulse_mem_cycle (n : Nat) (f : Bool) : ∀ x ∈ pulse n f, x ∈ pulseCycle := by
  induction n with
  | zero => intro x hx; simp [pulse] at hx
  | succ n ih =>
    intro x hx
    simp only [pulse] at hx
    rcases List.mem_append.mp hx with hx | hx
    · exact hx
    · exact ih x hx

lemma pulse_last (n : Nat) (f : Bool) : 0 < n → (pulse n f).getLast? = some max_b := by
  induction n with
  | zero => intro h; exact absurd h (by omega)
  | succ n ih =>
    intro _
    rcases Nat.eq_zero_or_pos n with rfl | hn
    · simp only [pulse, List.append_nil]
      exact pulseCycle_last
    · have hlast := ih hn
      have hne : pulse n f ≠ [] := by
        intro hnil
        rw [hnil] at hlast
        simp at hlast
      simp only [pulse]
      rw [List.getLast?_append_of_ne_nil _ hne]
      exact hlast

/-! ## Claim theorem: pulse brightness invariant -/

/-- C6: for every cycle count and both speed profiles, `pulse` never sets
the global brightness outside `[min_b, max_b] = [0.1, 1.0]` (clamping at
`min_b` on the decrement half and at `max_b` on the increment half), and
at the end of each run of full down-up cycles the brightness equals
`max_b`. -/
theorem pulse_brightness_bounds :
    (∀ (times : Nat) (fast : Bool) (x : ℚ), x ∈ pulse times fast →
        min_b ≤ x ∧ x ≤ max_b) ∧
    (∀ (times : Nat) (fast : Bool), 0 < times →
        (pulse times fast).getLast? = some max_b) := by
  constructor
  · intro times fast x hx
    exact pulseCycle_mem x (pulse_mem_cycle times fast x hx)
  · intro times fast h
    exact pulse_last times fast h

/-- Witness for C6's theorem: the first brightness value set by
`pulse(1, False)` is `1999/2000`, which lies within the bounds, and the
run ends at `max_b`. -/
theorem pulse_brightness_bounds_witness :
    (1999 / 2000 : ℚ) ∈ pulse 1 false ∧
    (min_b ≤ (1999 / 2000 : ℚ) ∧ (1999 / 2000 : ℚ) ≤ max_b) ∧
    (0 : Nat) < 1 ∧ (pulse 1 false).getLast? = some max_b := by
  have h1 : decLoop max_b = ((max_b - stepB) :: (decLoop (max_b - stepB)).1,
      (decLoop (max_b - stepB)).2) := by
    rw [decLoop.eq_def]
    rw [dif_pos (by norm_num [min_b, max_b]),
      dif_neg (by norm_num [min_b, max_b, stepB])]
  have hval : max_b - stepB = (1999 / 2000 : ℚ) := by norm_num [max_b, stepB]
  have hmem : (1999 / 2000 : ℚ) ∈ pulse 1 false := by
    rw [pulse]
    rw [pulse]
    rw [List.append_nil]
    rw [pulseCycle.eq_def]
    rw [h1]
    rw [List.cons_append]
    rw [hval]
    exact List.mem_cons_self _ _
  exact ⟨hmem, pulse_brightness_bounds.1 1 false _ hmem, Nat.one_pos,
    pulse_brightness_bounds.2 1 false Nat.one_pos⟩

end CheerBot
